import Mathlib

/-!
Verification of the `cw-it` `MultiTestRunner` (src/multi_test/runner.rs):
the message decoding/dispatch layer (`execute_multiple_raw`), the
execution-result aggregation (`execute_cosmos_msgs`), and contract code
registration (`store_code`).

Modelling conventions:
* Machine integers are `Nat` (u128 bounds are explicit where they matter).
* Byte strings are `List Nat`.
* The byte-level protobuf codec lives in the external `prost` crate and is
  not part of this repository; a wire payload is therefore modelled by the
  proto value it encodes (one constructor per proto message type used by the
  runner) plus a `garbage` constructor for bytes that fail to decode under
  the schema the runner tries. Cross-schema decoding confusion is not
  modelled: no claim depends on it.
* Rust panics (`unwrap` on a failed `u128::from_str` or `S::decode`) are an
  explicit `Outcome.panicked` result, distinct from returned errors.
* The `cw_multi_test::App` simulator is an external collaborator; it is a
  function parameter `Simulator` producing one `AppResponse` per executed
  message or a generic error.
-/

namespace CwIt

/-- Rust panics are observable outcomes distinct from returned errors:
`ok` models `Ok`, `err` models `Err`, `panicked` models a thread panic
(e.g. `unwrap` on a failed parse). -/
inductive Outcome (ε α : Type) where
  | ok : α → Outcome ε α
  | err : ε → Outcome ε α
  | panicked : Outcome ε α
deriving DecidableEq, Repr

/-- The `test_tube::DecodeError` variant the runner produces
(`DecodeError::ProtoDecodeError`). -/
inductive DecodeError where
  | protoDecodeError : DecodeError
deriving DecidableEq, Repr

/-- The `test_tube::RunnerError` variants the runner produces: a decode
error (via `?` on the per-message decoding) or a generic error carrying the
simulator's error message string. -/
inductive RunnerError where
  | decodeError : DecodeError → RunnerError
  | genericError : String → RunnerError
deriving DecidableEq, Repr

/-! ## Proto (wire) data model, from `osmosis_std` -/

/-- `osmosis_std` proto `Coin`: both fields are strings on the wire. -/
structure ProtoCoin where
  denom : String
  amount : String
deriving DecidableEq, Repr

/-- The prost `Default` value of a proto `Coin`: empty strings. -/
def protoCoinDefault : ProtoCoin := ⟨"", ""⟩

structure MsgSend where
  from_address : String
  to_address : String
  amount : List ProtoCoin
deriving DecidableEq, Repr

structure MsgExecuteContract where
  sender : String
  contract : String
  msg : List Nat
  funds : List ProtoCoin
deriving DecidableEq, Repr

structure MsgInstantiateContract where
  sender : String
  admin : String
  code_id : Nat
  label : String
  msg : List Nat
  funds : List ProtoCoin
deriving DecidableEq, Repr

structure MsgMigrateContract where
  sender : String
  contract : String
  code_id : Nat
  msg : List Nat
deriving DecidableEq, Repr

structure MsgUpdateAdmin where
  sender : String
  new_admin : String
  contract : String
deriving DecidableEq, Repr

structure MsgClearAdmin where
  sender : String
  contract : String
deriving DecidableEq, Repr

structure MsgDelegate where
  delegator_address : String
  validator_address : String
  amount : Option ProtoCoin
deriving DecidableEq, Repr

structure MsgUndelegate where
  delegator_address : String
  validator_address : String
  amount : Option ProtoCoin
deriving DecidableEq, Repr

structure MsgBeginRedelegate where
  delegator_address : String
  validator_src_address : String
  validator_dst_address : String
  amount : Option ProtoCoin
deriving DecidableEq, Repr

/-- A wire payload, identified with the proto value it encodes (the
byte-level codec is `prost`, external to this repository); `garbage n`
stands for bytes that fail to decode under whichever schema the runner
tries on them. -/
inductive Payload where
  | sendBytes : MsgSend → Payload
  | executeBytes : MsgExecuteContract → Payload
  | instantiateBytes : MsgInstantiateContract → Payload
  | migrateBytes : MsgMigrateContract → Payload
  | updateAdminBytes : MsgUpdateAdmin → Payload
  | clearAdminBytes : MsgClearAdmin → Payload
  | delegateBytes : MsgDelegate → Payload
  | undelegateBytes : MsgUndelegate → Payload
  | redelegateBytes : MsgBeginRedelegate → Payload
  | garbage : Nat → Payload
deriving DecidableEq, Repr

/-- `cosmrs::Any`: a type tag (url) plus an opaque payload. -/
structure AnyMsg where
  type_url : String
  value : Payload
deriving DecidableEq, Repr

def MsgExecuteContract.TYPE_URL : String := "/cosmwasm.wasm.v1.MsgExecuteContract"
def MsgInstantiateContract.TYPE_URL : String := "/cosmwasm.wasm.v1.MsgInstantiateContract"
def MsgMigrateContract.TYPE_URL : String := "/cosmwasm.wasm.v1.MsgMigrateContract"
def MsgUpdateAdmin.TYPE_URL : String := "/cosmwasm.wasm.v1.MsgUpdateAdmin"
def MsgClearAdmin.TYPE_URL : String := "/cosmwasm.wasm.v1.MsgClearAdmin"
def MsgSend.TYPE_URL : String := "/cosmos.bank.v1beta1.MsgSend"
def MsgDelegate.TYPE_URL : String := "/cosmos.staking.v1beta1.MsgDelegate"
def MsgUndelegate.TYPE_URL : String := "/cosmos.staking.v1beta1.MsgUndelegate"
def MsgBeginRedelegate.TYPE_URL : String := "/cosmos.staking.v1beta1.MsgBeginRedelegate"

/-- The fixed table of type tags the runner recognizes, in source order. -/
def knownUrls : List String :=
  [MsgExecuteContract.TYPE_URL, MsgInstantiateContract.TYPE_URL,
   MsgMigrateContract.TYPE_URL, MsgUpdateAdmin.TYPE_URL, MsgClearAdmin.TYPE_URL,
   MsgSend.TYPE_URL, MsgDelegate.TYPE_URL, MsgUndelegate.TYPE_URL,
   MsgBeginRedelegate.TYPE_URL]

/-- `MsgSend::decode` (prost): succeeds exactly on bytes encoding a `MsgSend`. -/
def MsgSend.decode : Payload → Option MsgSend
  | .sendBytes m => some m
  | _ => none

/-- `MsgExecuteContract::decode` (prost). -/
def MsgExecuteContract.decode : Payload → Option MsgExecuteContract
  | .executeBytes m => some m
  | _ => none

/-- `MsgInstantiateContract::decode` (prost). -/
def MsgInstantiateContract.decode : Payload → Option MsgInstantiateContract
  | .instantiateBytes m => some m
  | _ => none

/-- `MsgMigrateContract::decode` (prost). -/
def MsgMigrateContract.decode : Payload → Option MsgMigrateContract
  | .migrateBytes m => some m
  | _ => none

/-- `MsgUpdateAdmin::decode` (prost). -/
def MsgUpdateAdmin.decode : Payload → Option MsgUpdateAdmin
  | .updateAdminBytes m => some m
  | _ => none

/-- `MsgClearAdmin::decode` (prost). -/
def MsgClearAdmin.decode : Payload → Option MsgClearAdmin
  | .clearAdminBytes m => some m
  | _ => none

/-- `MsgDelegate::decode` (prost). -/
def MsgDelegate.decode : Payload → Option MsgDelegate
  | .delegateBytes m => some m
  | _ => none

/-- `MsgUndelegate::decode` (prost). -/
def MsgUndelegate.decode : Payload → Option MsgUndelegate
  | .undelegateBytes m => some m
  | _ => none

/-- `MsgBeginRedelegate::decode` (prost). -/
def MsgBeginRedelegate.decode : Payload → Option MsgBeginRedelegate
  | .redelegateBytes m => some m
  | _ => none

/-! ## Canonical message model (`cosmwasm_std::CosmosMsg`) -/

/-- `cosmwasm_std::Coin`: denom plus a `Uint128` amount (modelled as `Nat`;
every amount the decoder constructs is `< 2^128` because `u128::from_str`
enforces the bound). -/
structure Coin where
  denom : String
  amount : Nat
deriving DecidableEq, Repr

inductive WasmMsg where
  | execute (contract_addr : String) (msg : List Nat) (funds : List Coin)
  | instantiate (code_id : Nat) (admin : Option String) (msg : List Nat)
      (funds : List Coin) (label : String)
  | migrate (contract_addr : String) (new_code_id : Nat) (msg : List Nat)
  | updateAdmin (contract_addr : String) (admin : String)
  | clearAdmin (contract_addr : String)
deriving DecidableEq, Repr

inductive BankMsg where
  | send (to_address : String) (amount : List Coin)
deriving DecidableEq, Repr

inductive StakingMsg where
  | delegate (validator : String) (amount : Coin)
  | undelegate (validator : String) (amount : Coin)
  | redelegate (src_validator : String) (dst_validator : String) (amount : Coin)
deriving DecidableEq, Repr

/-- `cosmwasm_std::CosmosMsg<Empty>`, restricted to the variants the runner
produces; `stargate` is the passthrough for unrecognized type tags. -/
inductive CosmosMsg where
  | wasm : WasmMsg → CosmosMsg
  | bank : BankMsg → CosmosMsg
  | staking : StakingMsg → CosmosMsg
  | stargate (type_url : String) (value : Payload) : CosmosMsg
deriving DecidableEq, Repr

/-! ## `u128::from_str` -/

def isAsciiDigit (c : Char) : Bool := 48 ≤ c.toNat && c.toNat ≤ 57

/-- Value of a big-endian decimal digit list. -/
def digitsVal (cs : List Char) : Nat :=
  cs.foldl (fun a c => a * 10 + (c.toNat - 48)) 0

/-- Rust's integer `from_str` strips one leading `+` sign (for unsigned
types a leading minus sign is just an invalid digit). -/
def stripPlus (cs : List Char) : List Char :=
  match cs with
  | [] => []
  | c :: rest => if c = '+' then rest else c :: rest

/-- `u128::from_str`: an optional leading `+`, then one or more ASCII
digits, value below `2^128`; anything else is a parse error (`None`). -/
def parseU128 (s : String) : Option Nat :=
  let cs := stripPlus s.data
  if cs.isEmpty then none
  else if cs.all isAsciiDigit then
    let v := digitsVal cs
    if v < 2 ^ 128 then some v else none
  else none

/-! ## Decoding one tagged message (`execute_multiple_raw`'s match) -/

/-- Models `coin(u128::from_str(&c.amount).unwrap(), c.denom)`: a parse
failure is a panic, never a returned error. -/
def parseCoin (c : ProtoCoin) : Outcome RunnerError Coin :=
  match parseU128 c.amount with
  | some v => .ok ⟨c.denom, v⟩
  | none => .panicked

/-- Models `funds.into_iter().map(|c| coin(u128::from_str(&c.amount).unwrap(), c.denom)).collect()`:
left-to-right, the first failing amount panics. -/
def parseCoins : List ProtoCoin → Outcome RunnerError (List Coin)
  | [] => .ok []
  | c :: rest =>
    match parseCoin c with
    | .ok x =>
      match parseCoins rest with
      | .ok xs => .ok (x :: xs)
      | .err e => .err e
      | .panicked => .panicked
    | .err e => .err e
    | .panicked => .panicked

/-- The `MsgExecuteContract::TYPE_URL` arm. -/
def executeArm (v : Payload) : Outcome RunnerError CosmosMsg :=
  match MsgExecuteContract.decode v with
  | none => .err (.decodeError .protoDecodeError)
  | some m =>
    match parseCoins m.funds with
    | .ok funds => .ok (.wasm (.execute m.contract m.msg funds))
    | .err e => .err e
    | .panicked => .panicked

/-- The `MsgInstantiateContract::TYPE_URL` arm; note `admin: Some(msg.admin)`. -/
def instantiateArm (v : Payload) : Outcome RunnerError CosmosMsg :=
  match MsgInstantiateContract.decode v with
  | none => .err (.decodeError .protoDecodeError)
  | some m =>
    match parseCoins m.funds with
    | .ok funds =>
      .ok (.wasm (.instantiate m.code_id (some m.admin) m.msg funds m.label))
    | .err e => .err e
    | .panicked => .panicked

/-- The `MsgMigrateContract::TYPE_URL` arm. -/
def migrateArm (v : Payload) : Outcome RunnerError CosmosMsg :=
  match MsgMigrateContract.decode v with
  | none => .err (.decodeError .protoDecodeError)
  | some m => .ok (.wasm (.migrate m.contract m.code_id m.msg))

/-- The `MsgUpdateAdmin::TYPE_URL` arm. -/
def updateAdminArm (v : Payload) : Outcome RunnerError CosmosMsg :=
  match MsgUpdateAdmin.decode v with
  | none => .err (.decodeError .protoDecodeError)
  | some m => .ok (.wasm (.updateAdmin m.contract m.new_admin))

/-- The `MsgClearAdmin::TYPE_URL` arm. -/
def clearAdminArm (v : Payload) : Outcome RunnerError CosmosMsg :=
  match MsgClearAdmin.decode v with
  | none => .err (.decodeError .protoDecodeError)
  | some m => .ok (.wasm (.clearAdmin m.contract))

/-- The `MsgSend::TYPE_URL` arm. -/
def sendArm (v : Payload) : Outcome RunnerError CosmosMsg :=
  match MsgSend.decode v with
  | none => .err (.decodeError .protoDecodeError)
  | some m =>
    match parseCoins m.amount with
    | .ok amt => .ok (.bank (.send m.to_address amt))
    | .err e => .err e
    | .panicked => .panicked

/-- The `MsgDelegate::TYPE_URL` arm: `msg.amount.unwrap_or_default()`
followed by `u128::from_str(..).unwrap()`. -/
def delegateArm (v : Payload) : Outcome RunnerError CosmosMsg :=
  match MsgDelegate.decode v with
  | none => .err (.decodeError .protoDecodeError)
  | some m =>
    let proto_coin := m.amount.getD protoCoinDefault
    match parseU128 proto_coin.amount with
    | some a => .ok (.staking (.delegate m.validator_address ⟨proto_coin.denom, a⟩))
    | none => .panicked

/-- The `MsgUndelegate::TYPE_URL` arm. -/
def undelegateArm (v : Payload) : Outcome RunnerError CosmosMsg :=
  match MsgUndelegate.decode v with
  | none => .err (.decodeError .protoDecodeError)
  | some m =>
    let proto_coin := m.amount.getD protoCoinDefault
    match parseU128 proto_coin.amount with
    | some a => .ok (.staking (.undelegate m.validator_address ⟨proto_coin.denom, a⟩))
    | none => .panicked

/-- The `MsgBeginRedelegate::TYPE_URL` arm. -/
def redelegateArm (v : Payload) : Outcome RunnerError CosmosMsg :=
  match MsgBeginRedelegate.decode v with
  | none => .err (.decodeError .protoDecodeError)
  | some m =>
    let proto_coin := m.amount.getD protoCoinDefault
    match parseU128 proto_coin.amount with
    | some a =>
      .ok (.staking (.redelegate m.validator_src_address m.validator_dst_address
        ⟨proto_coin.denom, a⟩))
    | none => .panicked

/-- The per-message decoding match of `execute_multiple_raw`: dispatch on
`type_url` over the fixed table of known tags, in source order, with the
unknown-tag fallback producing a `Stargate` passthrough. -/
def decodeAnyMsg (msg : AnyMsg) : Outcome RunnerError CosmosMsg :=
  if msg.type_url = MsgExecuteContract.TYPE_URL then executeArm msg.value
  else if msg.type_url = MsgInstantiateContract.TYPE_URL then instantiateArm msg.value
  else if msg.type_url = MsgMigrateContract.TYPE_URL then migrateArm msg.value
  else if msg.type_url = MsgUpdateAdmin.TYPE_URL then updateAdminArm msg.value
  else if msg.type_url = MsgClearAdmin.TYPE_URL then clearAdminArm msg.value
  else if msg.type_url = MsgSend.TYPE_URL then sendArm msg.value
  else if msg.type_url = MsgDelegate.TYPE_URL then delegateArm msg.value
  else if msg.type_url = MsgUndelegate.TYPE_URL then undelegateArm msg.value
  else if msg.type_url = MsgBeginRedelegate.TYPE_URL then redelegateArm msg.value
  else .ok (.stargate msg.type_url msg.value)

/-- `msgs.iter().map(decode).collect::<Result<Vec<_>, RunnerError>>()`:
`collect` drives the iterator left to right and stops at the first `Err`;
a panic raised while decoding an earlier element preempts everything. -/
def mapDecode : List AnyMsg → Outcome RunnerError (List CosmosMsg)
  | [] => .ok []
  | m :: rest =>
    match decodeAnyMsg m with
    | .ok c =>
      match mapDecode rest with
      | .ok cs => .ok (c :: cs)
      | .err e => .err e
      | .panicked => .panicked
    | .err e => .err e
    | .panicked => .panicked

/-! ## Execution engine (`execute_cosmos_msgs`, `execute_multiple_raw`) -/

/-- `cosmwasm_std::Event`. -/
structure Event where
  ty : String
  attributes : List (String × String)
deriving DecidableEq, Repr

/-- `cw_multi_test::AppResponse`: an event list and an optional raw
response payload (`Option<Binary>`). -/
structure AppResponse where
  events : List Event
  data : Option (List Nat)
deriving DecidableEq, Repr

/-- The external `cw_multi_test::App::execute_multi` collaborator: given a
sender address and a batch of canonical messages it yields one
`AppResponse` per message, or a generic error (rendered to a string). -/
def Simulator : Type := String → List CosmosMsg → Except String (List AppResponse)

/-- The prost codec of the typed response `S` (`S: prost::Message +
Default`): `decode` can fail on arbitrary bytes, `encode` renders to bytes,
`default` is `S::default()`. -/
structure ProtoCodec (S : Type) where
  decode : List Nat → Option S
  encode : S → List Nat
  default : S

/-- `test_tube::ExecuteResponse<S>` (gas fields inlined from `GasInfo`). -/
structure ExecuteResponse (S : Type) where
  data : S
  events : List Event
  raw_data : List Nat
  gas_wanted : Nat
  gas_used : Nat
deriving DecidableEq, Repr

/-- `MultiTestRunner::execute_cosmos_msgs`: run the batch through the
simulator, concatenate all events in order, pick the last present
(`is_some`) data payload, decode it as `S` (`unwrap`: a decode failure
panics) or fall back to `S::default()`, and re-encode it as `raw_data`.
Gas is always reported as zero. -/
def execute_cosmos_msgs {S : Type} (codec : ProtoCodec S) (sim : Simulator)
    (signer : String) (msgs : List CosmosMsg) :
    Outcome RunnerError (ExecuteResponse S) :=
  match sim signer msgs with
  | .error e => .err (.genericError e)
  | .ok app_responses =>
    let events := (app_responses.map AppResponse.events).flatten
    let tmp := (app_responses.map AppResponse.data).filter Option.isSome
    let last_data := tmp.getLast?.getD none
    match last_data with
    | some d =>
      match codec.decode d with
      | none => .panicked
      | some data => .ok ⟨data, events, codec.encode data, 0, 0⟩
    | none => .ok ⟨codec.default, events, codec.encode codec.default, 0, 0⟩

/-- `MultiTestRunner::execute_multiple_raw`: decode every tagged message
(the whole batch is abandoned on the first decode error), then execute the
decoded batch. -/
def execute_multiple_raw {S : Type} (codec : ProtoCodec S) (sim : Simulator)
    (signer : String) (msgs : List AnyMsg) :
    Outcome RunnerError (ExecuteResponse S) :=
  match mapDecode msgs with
  | .ok decoded => execute_cosmos_msgs codec sim signer decoded
  | .err e => .err e
  | .panicked => .panicked

/-- `MultiTestRunner::execute_multiple`: pair each proto payload with its
caller-supplied type url (the `prost` encode step is the `Payload`
identification) and delegate to `execute_multiple_raw`. -/
def execute_multiple {S : Type} (codec : ProtoCodec S) (sim : Simulator)
    (signer : String) (msgs : List (Payload × String)) :
    Outcome RunnerError (ExecuteResponse S) :=
  execute_multiple_raw codec sim signer
    (msgs.map fun p => ⟨p.2, p.1⟩)

/-! ## Code store (`WasmRunner::store_code`) -/

/-- An in-memory `cw_multi_test` contract implementation; opaque here,
modelled as an abstract token. -/
structure ContractImpl where
  token : Nat
deriving DecidableEq, Repr

/-- Modelled from the spec: `crate::artifact::Artifact` is declared outside
the provided sources; per the spec it is "a reference to a compiled binary
on disk" (the tests use `Artifact::Local(path)`). -/
inductive Artifact where
  | local (path : String)
deriving DecidableEq, Repr

/-- Modelled from the spec: `crate::traits::ContractType` is declared
outside the provided sources; its two variants are the ones matched in
`store_code` — an in-memory multi-test contract and a disk artifact. -/
inductive ContractType where
  | multiTestContract : ContractImpl → ContractType
  | artifact : Artifact → ContractType
deriving DecidableEq, Repr

/-- `MultiTestRunner::store_code`: an in-memory contract is registered with
the simulator (`app.store_code`, modelled as the `storeImpl` collaborator
returning the assigned id); any other artifact kind is rejected with
`bail!("Artifact not supported for MultiTestRunner")`. The signer is
ignored. -/
def store_code (storeImpl : ContractImpl → Nat) (code : ContractType)
    (_signer : String) : Except String Nat :=
  match code with
  | .multiTestContract contract => .ok (storeImpl contract)
  | .artifact _ => .error "Artifact not supported for MultiTestRunner"

/-! ## Decimal rendering (for the spec-modelled encoder) -/

def digitChar (n : Nat) : Char := Char.ofNat (48 + n)

/-- Big-endian decimal digits of `n`, fuelled structurally (the fuel `n+1`
always suffices). -/
def natToDigitsAux : Nat → Nat → List Char → List Char
  | 0, _, acc => acc
  | fuel + 1, n, acc =>
    if n < 10 then digitChar n :: acc
    else natToDigitsAux fuel (n / 10) (digitChar (n % 10) :: acc)

def natToDigits (n : Nat) : List Char := natToDigitsAux (n + 1) n []

/-- Decimal rendering of a nonnegative integer (what Rust's `Display` for
`u128` produces). -/
def natToDecString (n : Nat) : String := String.mk (natToDigits n)

/-! ## Spec-modelled canonical encoder -/

/-- Modelled from the spec: render a canonical coin back to its wire form
(amount as a decimal string). The source has no canonical-to-wire encoder;
this is the encode direction of the spec's round-trip property. -/
def encodeCoin (c : Coin) : ProtoCoin := ⟨c.denom, natToDecString c.amount⟩

/-- Modelled from the spec: "encoding a canonical message to its tagged
wire form" — each known canonical operation maps to the proto message of
its type tag, with proto-only fields (sender addresses) left at their proto
default and an absent `admin` rendered as the proto default empty string.
The source has no such encoder (`execute_multiple` encodes caller-supplied
proto structs); `stargate` passthrough messages have no known tag and are
not encodable. -/
def encodeCanonical : CosmosMsg → Option AnyMsg
  | .wasm (.execute addr m funds) =>
    some ⟨MsgExecuteContract.TYPE_URL, .executeBytes ⟨"", addr, m, funds.map encodeCoin⟩⟩
  | .wasm (.instantiate cid admin m funds label) =>
    some ⟨MsgInstantiateContract.TYPE_URL,
      .instantiateBytes ⟨"", admin.getD "", cid, label, m, funds.map encodeCoin⟩⟩
  | .wasm (.migrate addr ncid m) =>
    some ⟨MsgMigrateContract.TYPE_URL, .migrateBytes ⟨"", addr, ncid, m⟩⟩
  | .wasm (.updateAdmin addr ad) =>
    some ⟨MsgUpdateAdmin.TYPE_URL, .updateAdminBytes ⟨"", ad, addr⟩⟩
  | .wasm (.clearAdmin addr) =>
    some ⟨MsgClearAdmin.TYPE_URL, .clearAdminBytes ⟨"", addr⟩⟩
  | .bank (.send toAddr amt) =>
    some ⟨MsgSend.TYPE_URL, .sendBytes ⟨"", toAddr, amt.map encodeCoin⟩⟩
  | .staking (.delegate val amt) =>
    some ⟨MsgDelegate.TYPE_URL, .delegateBytes ⟨"", val, some (encodeCoin amt)⟩⟩
  | .staking (.undelegate val amt) =>
    some ⟨MsgUndelegate.TYPE_URL, .undelegateBytes ⟨"", val, some (encodeCoin amt)⟩⟩
  | .staking (.redelegate src dst amt) =>
    some ⟨MsgBeginRedelegate.TYPE_URL,
      .redelegateBytes ⟨"", src, dst, some (encodeCoin amt)⟩⟩
  | .stargate _ _ => none

/-- A canonical `Uint128` amount is in range. -/
def Coin.valid (c : Coin) : Bool := c.amount < 2 ^ 128

def coinsValid (l : List Coin) : Bool := l.all Coin.valid

/-- All coin amounts of a canonical message are in `Uint128` range ("valid
field values" of the spec's round-trip property). -/
def CosmosMsg.amountsValid : CosmosMsg → Bool
  | .wasm (.execute _ _ funds) => coinsValid funds
  | .wasm (.instantiate _ _ _ funds _) => coinsValid funds
  | .wasm (.migrate _ _ _) => true
  | .wasm (.updateAdmin _ _) => true
  | .wasm (.clearAdmin _) => true
  | .bank (.send _ amt) => coinsValid amt
  | .staking (.delegate _ a) => Coin.valid a
  | .staking (.undelegate _ a) => Coin.valid a
  | .staking (.redelegate _ _ a) => Coin.valid a
  | .stargate _ _ => true

/-- An `instantiate` admin that is actually representable on the wire
(`admin = none` has no distinct proto encoding). -/
def CosmosMsg.adminEncodable : CosmosMsg → Bool
  | .wasm (.instantiate _ admin _ _ _) => admin.isSome
  | _ => true

/-- The admin field of a canonical instantiate message (`none` for any
other message shape). -/
def instantiateAdmin : CosmosMsg → Option (Option String)
  | .wasm (.instantiate _ ad _ _ _) => some ad
  | _ => none

/-- A tagged message with a known tag whose payload proto-decodes under
that tag's schema but carries a coin amount string that does not parse as
`u128` (for the staking tags: an amount field that is present but
unparseable). These are exactly the well-formed-but-bad-amount inputs. -/
def payloadBadAmount (m : AnyMsg) : Bool :=
  if m.type_url = MsgExecuteContract.TYPE_URL then
    match MsgExecuteContract.decode m.value with
    | some x => x.funds.any (fun c => (parseU128 c.amount).isNone)
    | none => false
  else if m.type_url = MsgInstantiateContract.TYPE_URL then
    match MsgInstantiateContract.decode m.value with
    | some x => x.funds.any (fun c => (parseU128 c.amount).isNone)
    | none => false
  else if m.type_url = MsgSend.TYPE_URL then
    match MsgSend.decode m.value with
    | some x => x.amount.any (fun c => (parseU128 c.amount).isNone)
    | none => false
  else if m.type_url = MsgDelegate.TYPE_URL then
    match MsgDelegate.decode m.value with
    | some x =>
      match x.amount with
      | some c => (parseU128 c.amount).isNone
      | none => false
    | none => false
  else if m.type_url = MsgUndelegate.TYPE_URL then
    match MsgUndelegate.decode m.value with
    | some x =>
      match x.amount with
      | some c => (parseU128 c.amount).isNone
      | none => false
    | none => false
  else if m.type_url = MsgBeginRedelegate.TYPE_URL then
    match MsgBeginRedelegate.decode m.value with
    | some x =>
      match x.amount with
      | some c => (parseU128 c.amount).isNone
      | none => false
    | none => false
  else false

/-! ## Concrete collaborators for closed-instance checks -/

/-- A lawful prost codec for witnesses: the raw-bytes message (decoding
never fails, the default message encodes to no bytes). -/
def listCodec : ProtoCodec (List Nat) := ⟨fun d => some d, fun d => d, []⟩

/-- A simulator stub returning a fixed response list. -/
def simConst (rs : List AppResponse) : Simulator := fun _ _ => .ok rs

/-- Sub-results with raw data `[none, some A, none, some B]` (the spec's
last-non-empty-wins example). -/
def rs4 : List AppResponse :=
  [⟨[], none⟩, ⟨[], some [1]⟩, ⟨[], none⟩, ⟨[], some [2]⟩]

/-- A single sub-result carrying one event and no data. -/
def rsEv : List AppResponse := [⟨[⟨"transfer", [("recipient", "bob")]⟩], none⟩]

/-! ## Helper lemmas: decimal digits and `u128` parsing -/

theorem digitChar_toNat (k : Nat) (h : k < 10) : (digitChar k).toNat = 48 + k := by
  interval_cases k <;> decide

theorem digitChar_isDigit (k : Nat) (h : k < 10) : isAsciiDigit (digitChar k) = true := by
  interval_cases k <;> decide

theorem natToDigitsAux_append (fuel : Nat) :
    ∀ n acc, natToDigitsAux fuel n acc = natToDigitsAux fuel n [] ++ acc := by
  induction fuel with
  | zero => intro n acc; simp [natToDigitsAux]
  | succ fuel ih =>
    intro n acc
    by_cases h : n < 10
    · simp [natToDigitsAux, h]
    · simp only [natToDigitsAux, if_neg h]
      rw [ih (n / 10) (digitChar (n % 10) :: acc), ih (n / 10) [digitChar (n % 10)]]
      simp

theorem digitsVal_append_singleton (xs : List Char) (c : Char) :
    digitsVal (xs ++ [c]) = digitsVal xs * 10 + (c.toNat - 48) := by
  simp [digitsVal, List.foldl_append]

theorem digitsVal_natToDigitsAux :
    ∀ fuel n, n < fuel → digitsVal (natToDigitsAux fuel n []) = n := by
  intro fuel
  induction fuel with
  | zero => intro n h; omega
  | succ fuel ih =>
    intro n h
    by_cases h10 : n < 10
    · simp [natToDigitsAux, h10, digitsVal, digitChar_toNat n h10]
    · have hd : n / 10 < n := Nat.div_lt_self (by omega) (by omega)
      simp only [natToDigitsAux, if_neg h10]
      rw [natToDigitsAux_append, digitsVal_append_singleton, ih (n / 10) (by omega),
        digitChar_toNat (n % 10) (Nat.mod_lt _ (by omega))]
      omega

theorem natToDigitsAux_digits :
    ∀ fuel n, n < fuel → (natToDigitsAux fuel n []).all isAsciiDigit = true := by
  intro fuel
  induction fuel with
  | zero => intro n h; omega
  | succ fuel ih =>
    intro n h
    by_cases h10 : n < 10
    · simp [natToDigitsAux, h10, digitChar_isDigit n h10]
    · have hd : n / 10 < n := Nat.div_lt_self (by omega) (by omega)
      simp only [natToDigitsAux, if_neg h10]
      rw [natToDigitsAux_append, List.all_append]
      rw [ih (n / 10) (by omega)]
      simp [digitChar_isDigit (n % 10) (Nat.mod_lt _ (by omega))]

theorem natToDigitsAux_ne_nil :
    ∀ fuel n, n < fuel → natToDigitsAux fuel n [] ≠ [] := by
  intro fuel
  induction fuel with
  | zero => intro n h; omega
  | succ fuel _ =>
    intro n h
    by_cases h10 : n < 10
    · simp [natToDigitsAux, h10]
    · simp only [natToDigitsAux, if_neg h10]
      rw [natToDigitsAux_append]
      simp

theorem stripPlus_of_digits (cs : List Char) (h : cs.all isAsciiDigit = true) :
    stripPlus cs = cs := by
  cases cs with
  | nil => rfl
  | cons c rest =>
    rw [List.all_cons, Bool.and_eq_true] at h
    have hplus : ¬(c = '+') := by
      intro he
      subst he
      exact absurd h.1 (by decide)
    simp [stripPlus, hplus]

theorem parseU128_natToDecString (v : Nat) (h : v < 2 ^ 128) :
    parseU128 (natToDecString v) = some v := by
  have hlt : v < v + 1 := Nat.lt_succ_self v
  have hall := natToDigitsAux_digits (v + 1) v hlt
  have hne := natToDigitsAux_ne_nil (v + 1) v hlt
  have hval := digitsVal_natToDigitsAux (v + 1) v hlt
  have hemp : (natToDigitsAux (v + 1) v []).isEmpty = false := by
    cases hcs : natToDigitsAux (v + 1) v [] with
    | nil => exact absurd hcs hne
    | cons a t => rfl
  have hdata : (String.mk (natToDigitsAux (v + 1) v [])).data
      = natToDigitsAux (v + 1) v [] := rfl
  simp only [parseU128, natToDecString, natToDigits, hdata,
    stripPlus_of_digits _ hall, hemp, hall, hval]
  simp
  omega

/-! ## Helper lemmas: coin lists -/

theorem parseCoins_map_encodeCoin :
    ∀ l : List Coin, coinsValid l = true → parseCoins (l.map encodeCoin) = .ok l := by
  intro l
  induction l with
  | nil => intro _; rfl
  | cons c rest ih =>
    intro h
    rw [coinsValid, List.all_cons, Bool.and_eq_true] at h
    obtain ⟨hc, hrest⟩ := h
    have hc' : c.amount < 2 ^ 128 := by
      have := of_decide_eq_true hc
      exact this
    have h1 : parseCoin (encodeCoin c) = .ok ⟨c.denom, c.amount⟩ := by
      simp [parseCoin, encodeCoin, parseU128_natToDecString c.amount hc']
    simp [parseCoins, h1, ih hrest]

theorem parseCoins_panicked :
    ∀ l : List ProtoCoin, l.any (fun c => (parseU128 c.amount).isNone) = true →
      parseCoins l = .panicked := by
  intro l
  induction l with
  | nil => intro h; simp at h
  | cons c rest ih =>
    intro h
    rw [List.any_cons, Bool.or_eq_true] at h
    cases h with
    | inl hc =>
      have hc' : parseU128 c.amount = none := Option.isNone_iff_eq_none.mp hc
      simp [parseCoins, parseCoin, hc']
    | inr hrest =>
      cases hp : parseCoin c with
      | ok x => simp [parseCoins, hp, ih hrest]
      | err e => cases hq : parseU128 c.amount <;> simp [parseCoin, hq] at hp
      | panicked => simp [parseCoins, hp]

/-! ## Helper lemmas: dispatch reduction, one per known tag -/

theorem decodeAnyMsg_executeUrl (v : Payload) :
    decodeAnyMsg ⟨MsgExecuteContract.TYPE_URL, v⟩ = executeArm v := by
  simp [decodeAnyMsg]

theorem decodeAnyMsg_instantiateUrl (v : Payload) :
    decodeAnyMsg ⟨MsgInstantiateContract.TYPE_URL, v⟩ = instantiateArm v := by
  simp [decodeAnyMsg, MsgExecuteContract.TYPE_URL, MsgInstantiateContract.TYPE_URL]

theorem decodeAnyMsg_migrateUrl (v : Payload) :
    decodeAnyMsg ⟨MsgMigrateContract.TYPE_URL, v⟩ = migrateArm v := by
  simp [decodeAnyMsg, MsgExecuteContract.TYPE_URL, MsgInstantiateContract.TYPE_URL,
    MsgMigrateContract.TYPE_URL]

theorem decodeAnyMsg_updateAdminUrl (v : Payload) :
    decodeAnyMsg ⟨MsgUpdateAdmin.TYPE_URL, v⟩ = updateAdminArm v := by
  simp [decodeAnyMsg, MsgExecuteContract.TYPE_URL, MsgInstantiateContract.TYPE_URL,
    MsgMigrateContract.TYPE_URL, MsgUpdateAdmin.TYPE_URL]

theorem decodeAnyMsg_clearAdminUrl (v : Payload) :
    decodeAnyMsg ⟨MsgClearAdmin.TYPE_URL, v⟩ = clearAdminArm v := by
  simp [decodeAnyMsg, MsgExecuteContract.TYPE_URL, MsgInstantiateContract.TYPE_URL,
    MsgMigrateContract.TYPE_URL, MsgUpdateAdmin.TYPE_URL, MsgClearAdmin.TYPE_URL]

theorem decodeAnyMsg_sendUrl (v : Payload) :
    decodeAnyMsg ⟨MsgSend.TYPE_URL, v⟩ = sendArm v := by
  simp [decodeAnyMsg, MsgExecuteContract.TYPE_URL, MsgInstantiateContract.TYPE_URL,
    MsgMigrateContract.TYPE_URL, MsgUpdateAdmin.TYPE_URL, MsgClearAdmin.TYPE_URL,
    MsgSend.TYPE_URL]

theorem decodeAnyMsg_delegateUrl (v : Payload) :
    decodeAnyMsg ⟨MsgDelegate.TYPE_URL, v⟩ = delegateArm v := by
  simp [decodeAnyMsg, MsgExecuteContract.TYPE_URL, MsgInstantiateContract.TYPE_URL,
    MsgMigrateContract.TYPE_URL, MsgUpdateAdmin.TYPE_URL, MsgClearAdmin.TYPE_URL,
    MsgSend.TYPE_URL, MsgDelegate.TYPE_URL]

theorem decodeAnyMsg_undelegateUrl (v : Payload) :
    decodeAnyMsg ⟨MsgUndelegate.TYPE_URL, v⟩ = undelegateArm v := by
  simp [decodeAnyMsg, MsgExecuteContract.TYPE_URL, MsgInstantiateContract.TYPE_URL,
    MsgMigrateContract.TYPE_URL, MsgUpdateAdmin.TYPE_URL, MsgClearAdmin.TYPE_URL,
    MsgSend.TYPE_URL, MsgDelegate.TYPE_URL, MsgUndelegate.TYPE_URL]

theorem decodeAnyMsg_redelegateUrl (v : Payload) :
    decodeAnyMsg ⟨MsgBeginRedelegate.TYPE_URL, v⟩ = redelegateArm v := by
  simp [decodeAnyMsg, MsgExecuteContract.TYPE_URL, MsgInstantiateContract.TYPE_URL,
    MsgMigrateContract.TYPE_URL, MsgUpdateAdmin.TYPE_URL, MsgClearAdmin.TYPE_URL,
    MsgSend.TYPE_URL, MsgDelegate.TYPE_URL, MsgUndelegate.TYPE_URL,
    MsgBeginRedelegate.TYPE_URL]

theorem decodeAnyMsg_unknownUrl (url : String) (v : Payload) (h : url ∉ knownUrls) :
    decodeAnyMsg ⟨url, v⟩ = .ok (.stargate url v) := by
  simp only [knownUrls, List.mem_cons, List.not_mem_nil, or_false, not_or] at h
  obtain ⟨h1, h2, h3, h4, h5, h6, h7, h8, h9⟩ := h
  simp [decodeAnyMsg, h1, h2, h3, h4, h5, h6, h7, h8, h9]

/-! ## Helper lemmas: last present payload and batch decoding -/

theorem head_filter_isSome {α : Type} :
    ∀ m : List (Option α),
      ((m.filter Option.isSome).head?).getD none = (m.filterMap id).head? := by
  intro m
  induction m with
  | nil => rfl
  | cons a t ih =>
    cases a with
    | none => simpa [List.filter_cons, List.filterMap_cons] using ih
    | some x => simp [List.filter_cons, List.filterMap_cons]

theorem getLast_filter_isSome {α : Type} (l : List (Option α)) :
    ((l.filter Option.isSome).getLast?).getD none = (l.filterMap id).getLast? := by
  rw [List.getLast?_eq_head?_reverse, List.getLast?_eq_head?_reverse,
    ← List.filter_reverse, ← List.filterMap_reverse]
  exact head_filter_isSome l.reverse

theorem parseCoin_ne_err (c : ProtoCoin) (e : RunnerError) : parseCoin c ≠ .err e := by
  cases hq : parseU128 c.amount <;> simp [parseCoin, hq]

theorem mapDecode_append_err :
    ∀ (pre : List AnyMsg) (cs : List CosmosMsg) (bad : AnyMsg) (post : List AnyMsg)
      (e : RunnerError),
      mapDecode pre = .ok cs → decodeAnyMsg bad = .err e →
      mapDecode (pre ++ bad :: post) = .err e := by
  intro pre
  induction pre with
  | nil =>
    intro cs bad post e _ hbad
    simp [mapDecode, hbad]
  | cons m t ih =>
    intro cs bad post e hpre hbad
    cases hm : decodeAnyMsg m with
    | ok c =>
      cases ht : mapDecode t with
      | ok cs' => simp [List.cons_append, mapDecode, hm, ih cs' bad post e ht hbad]
      | err e' => simp [mapDecode, hm, ht] at hpre
      | panicked => simp [mapDecode, hm, ht] at hpre
    | err e' => simp [mapDecode, hm] at hpre
    | panicked => simp [mapDecode, hm] at hpre

/-! ## Claim theorems -/

/-- Claim C1, counterexample: a `MsgSend` with a known tag, a payload that
proto-decodes fine, and the non-numeric amount string `"abc"` makes
decoding panic (`unwrap` on `u128::from_str`); it does not return any
`DecodeError` to the caller, contrary to the claim. -/
theorem c1_counterexample :
    (AnyMsg.mk MsgSend.TYPE_URL (.sendBytes ⟨"alice", "bob", [⟨"uatom", "abc"⟩]⟩)).type_url
        ∈ knownUrls ∧
    MsgSend.decode (.sendBytes ⟨"alice", "bob", [⟨"uatom", "abc"⟩]⟩)
        = some ⟨"alice", "bob", [⟨"uatom", "abc"⟩]⟩ ∧
    parseU128 "abc" = none ∧
    decodeAnyMsg ⟨MsgSend.TYPE_URL, .sendBytes ⟨"alice", "bob", [⟨"uatom", "abc"⟩]⟩⟩
        = .panicked := by
  exact ⟨by decide, rfl, by decide, by decide⟩

/-- Claim C1, amended: for every message with a known type tag whose
payload proto-decodes under that tag's schema but contains a coin amount
string that does not parse as an unsigned 128-bit integer, decoding panics
(`u128::from_str(..).unwrap()`); no `DecodeError` is returned. -/
theorem c1_amended (m : AnyMsg) (h : payloadBadAmount m = true) :
    decodeAnyMsg m = .panicked := by
  obtain ⟨url, v⟩ := m
  simp only [payloadBadAmount] at h
  by_cases h1 : url = MsgExecuteContract.TYPE_URL
  · subst h1
    rw [if_pos rfl] at h
    rw [decodeAnyMsg_executeUrl]
    cases hv : MsgExecuteContract.decode v with
    | none => rw [hv] at h; simp at h
    | some x =>
      rw [hv] at h
      simp only [executeArm, hv, parseCoins_panicked x.funds h]
  · rw [if_neg h1] at h
    by_cases h2 : url = MsgInstantiateContract.TYPE_URL
    · subst h2
      rw [if_pos rfl] at h
      rw [decodeAnyMsg_instantiateUrl]
      cases hv : MsgInstantiateContract.decode v with
      | none => rw [hv] at h; simp at h
      | some x =>
        rw [hv] at h
        simp only [instantiateArm, hv, parseCoins_panicked x.funds h]
    · rw [if_neg h2] at h
      by_cases h3 : url = MsgSend.TYPE_URL
      · subst h3
        rw [if_pos rfl] at h
        rw [decodeAnyMsg_sendUrl]
        cases hv : MsgSend.decode v with
        | none => rw [hv] at h; simp at h
        | some x =>
          rw [hv] at h
          simp only [sendArm, hv, parseCoins_panicked x.amount h]
      · rw [if_neg h3] at h
        by_cases h4 : url = MsgDelegate.TYPE_URL
        · subst h4
          rw [if_pos rfl] at h
          rw [decodeAnyMsg_delegateUrl]
          cases hv : MsgDelegate.decode v with
          | none => rw [hv] at h; simp at h
          | some x =>
            rw [hv] at h
            have h2 : (match x.amount with
                | some c => (parseU128 c.amount).isNone
                | none => false) = true := h
            cases ha : x.amount with
            | none => rw [ha] at h2; simp at h2
            | some pc =>
              rw [ha] at h2
              have hpc : parseU128 pc.amount = none := Option.isNone_iff_eq_none.mp h2
              simp only [delegateArm, hv, ha, Option.getD_some, hpc]
        · rw [if_neg h4] at h
          by_cases h5 : url = MsgUndelegate.TYPE_URL
          · subst h5
            rw [if_pos rfl] at h
            rw [decodeAnyMsg_undelegateUrl]
            cases hv : MsgUndelegate.decode v with
            | none => rw [hv] at h; simp at h
            | some x =>
              rw [hv] at h
              have h2 : (match x.amount with
                  | some c => (parseU128 c.amount).isNone
                  | none => false) = true := h
              cases ha : x.amount with
              | none => rw [ha] at h2; simp at h2
              | some pc =>
                rw [ha] at h2
                have hpc : parseU128 pc.amount = none := Option.isNone_iff_eq_none.mp h2
                simp only [undelegateArm, hv, ha, Option.getD_some, hpc]
          · rw [if_neg h5] at h
            by_cases h6 : url = MsgBeginRedelegate.TYPE_URL
            · subst h6
              rw [if_pos rfl] at h
              rw [decodeAnyMsg_redelegateUrl]
              cases hv : MsgBeginRedelegate.decode v with
              | none => rw [hv] at h; simp at h
              | some x =>
                rw [hv] at h
                have h2 : (match x.amount with
                    | some c => (parseU128 c.amount).isNone
                    | none => false) = true := h
                cases ha : x.amount with
                | none => rw [ha] at h2; simp at h2
                | some pc =>
                  rw [ha] at h2
                  have hpc : parseU128 pc.amount = none := Option.isNone_iff_eq_none.mp h2
                  simp only [redelegateArm, hv, ha, Option.getD_some, hpc]
            · rw [if_neg h6] at h
              simp at h

/-- Claim C1, amended, witness: the counterexample's `MsgSend` input
satisfies the bad-amount predicate and decoding it panics. -/
theorem c1_amended_witness :
    decodeAnyMsg ⟨MsgSend.TYPE_URL, .sendBytes ⟨"alice", "bob", [⟨"uosmo", "1x"⟩]⟩⟩
      = .panicked :=
  c1_amended ⟨MsgSend.TYPE_URL, .sendBytes ⟨"alice", "bob", [⟨"uosmo", "1x"⟩]⟩⟩ (by decide)

/-- Claim C9: every `MsgInstantiateContract` payload that decodes
successfully yields a canonical `Instantiate` whose admin is
`Some(msg.admin)` — `Some` of the proto admin string, never `None` (the
proto default empty string included). -/
theorem c9_instantiate_admin_always_some (m : MsgInstantiateContract) (c : CosmosMsg)
    (h : decodeAnyMsg ⟨MsgInstantiateContract.TYPE_URL, .instantiateBytes m⟩ = .ok c) :
    instantiateAdmin c = some (some m.admin) := by
  rw [decodeAnyMsg_instantiateUrl] at h
  simp only [instantiateArm, MsgInstantiateContract.decode] at h
  cases hf : parseCoins m.funds with
  | ok funds =>
    rw [hf] at h
    rw [Outcome.ok.injEq] at h
    subst h
    rfl
  | err e => rw [hf] at h; simp at h
  | panicked => rw [hf] at h; simp at h

/-- Claim C9, witness: a proto message with the (default) empty admin
string decodes to an instantiate whose admin is `some ""`, not `none`. -/
theorem c9_instantiate_admin_always_some_witness :
    instantiateAdmin (.wasm (.instantiate 7 (some "") [1] [] "lbl")) = some (some "") :=
  c9_instantiate_admin_always_some ⟨"alice", "", 7, "lbl", [1], []⟩
    (.wasm (.instantiate 7 (some "") [1] [] "lbl")) (by decide)

/-- Claim C10: each staking tag substitutes `unwrap_or_default()` for an
absent amount field — a default proto coin whose amount string is empty —
and `u128::from_str("")` fails so the `unwrap` panics; with the amount
present and parseable, decoding is total and produces the staking message. -/
theorem c10_staking_absent_amount_panics :
    protoCoinDefault.amount = "" ∧
    parseU128 "" = none ∧
    (∀ m : MsgDelegate, m.amount = none →
      decodeAnyMsg ⟨MsgDelegate.TYPE_URL, .delegateBytes m⟩ = .panicked) ∧
    (∀ m : MsgUndelegate, m.amount = none →
      decodeAnyMsg ⟨MsgUndelegate.TYPE_URL, .undelegateBytes m⟩ = .panicked) ∧
    (∀ m : MsgBeginRedelegate, m.amount = none →
      decodeAnyMsg ⟨MsgBeginRedelegate.TYPE_URL, .redelegateBytes m⟩ = .panicked) ∧
    (∀ (m : MsgDelegate) (pc : ProtoCoin) (a : Nat), m.amount = some pc →
      parseU128 pc.amount = some a →
      decodeAnyMsg ⟨MsgDelegate.TYPE_URL, .delegateBytes m⟩ =
        .ok (.staking (.delegate m.validator_address ⟨pc.denom, a⟩))) ∧
    (∀ (m : MsgUndelegate) (pc : ProtoCoin) (a : Nat), m.amount = some pc →
      parseU128 pc.amount = some a →
      decodeAnyMsg ⟨MsgUndelegate.TYPE_URL, .undelegateBytes m⟩ =
        .ok (.staking (.undelegate m.validator_address ⟨pc.denom, a⟩))) ∧
    (∀ (m : MsgBeginRedelegate) (pc : ProtoCoin) (a : Nat), m.amount = some pc →
      parseU128 pc.amount = some a →
      decodeAnyMsg ⟨MsgBeginRedelegate.TYPE_URL, .redelegateBytes m⟩ =
        .ok (.staking (.redelegate m.validator_src_address m.validator_dst_address
          ⟨pc.denom, a⟩))) := by
  refine ⟨rfl, by decide, ?_, ?_, ?_, ?_, ?_, ?_⟩
  · intro m hm
    rw [decodeAnyMsg_delegateUrl]
    simp only [delegateArm, MsgDelegate.decode, hm, Option.getD_none,
      show parseU128 protoCoinDefault.amount = none from by decide]
  · intro m hm
    rw [decodeAnyMsg_undelegateUrl]
    simp only [undelegateArm, MsgUndelegate.decode, hm, Option.getD_none,
      show parseU128 protoCoinDefault.amount = none from by decide]
  · intro m hm
    rw [decodeAnyMsg_redelegateUrl]
    simp only [redelegateArm, MsgBeginRedelegate.decode, hm, Option.getD_none,
      show parseU128 protoCoinDefault.amount = none from by decide]
  · intro m pc a hm hp
    rw [decodeAnyMsg_delegateUrl]
    simp only [delegateArm, MsgDelegate.decode, hm, Option.getD_some, hp]
  · intro m pc a hm hp
    rw [decodeAnyMsg_undelegateUrl]
    simp only [undelegateArm, MsgUndelegate.decode, hm, Option.getD_some, hp]
  · intro m pc a hm hp
    rw [decodeAnyMsg_redelegateUrl]
    simp only [redelegateArm, MsgBeginRedelegate.decode, hm, Option.getD_some, hp]

/-- Claim C10, witness: a delegate message with no amount panics; one with
amount `"7"` decodes totally. -/
theorem c10_staking_absent_amount_panics_witness :
    decodeAnyMsg ⟨MsgDelegate.TYPE_URL, .delegateBytes ⟨"d", "val", none⟩⟩ = .panicked ∧
    decodeAnyMsg ⟨MsgUndelegate.TYPE_URL, .undelegateBytes ⟨"d", "val", none⟩⟩ = .panicked ∧
    decodeAnyMsg ⟨MsgBeginRedelegate.TYPE_URL,
      .redelegateBytes ⟨"d", "v1", "v2", none⟩⟩ = .panicked ∧
    decodeAnyMsg ⟨MsgDelegate.TYPE_URL, .delegateBytes ⟨"d", "val", some ⟨"uatom", "7"⟩⟩⟩ =
      .ok (.staking (.delegate "val" ⟨"uatom", 7⟩)) := by
  obtain ⟨-, -, hd, hu, hr, hdp, -, -⟩ := c10_staking_absent_amount_panics
  exact ⟨hd ⟨"d", "val", none⟩ rfl, hu ⟨"d", "val", none⟩ rfl,
    hr ⟨"d", "v1", "v2", none⟩ rfl,
    hdp ⟨"d", "val", some ⟨"uatom", "7"⟩⟩ ⟨"uatom", "7"⟩ 7 rfl (by decide)⟩

/-- Claim C3: for a type tag matching none of the nine known tags,
decoding never fails: the message becomes a `Stargate` passthrough
carrying exactly the original tag and payload, and is forwarded to the
simulator (executing the one-message batch is executing the passthrough). -/
theorem c3_unknown_tag_passthrough {S : Type} (codec : ProtoCodec S) (sim : Simulator)
    (signer : String) (url : String) (v : Payload) (h : url ∉ knownUrls) :
    decodeAnyMsg ⟨url, v⟩ = .ok (.stargate url v) ∧
    execute_multiple_raw codec sim signer [⟨url, v⟩] =
      execute_cosmos_msgs codec sim signer [.stargate url v] := by
  have hd := decodeAnyMsg_unknownUrl url v h
  refine ⟨hd, ?_⟩
  simp [execute_multiple_raw, mapDecode, hd]

/-- Claim C3, witness: an unregistered osmosis tag passes through. -/
theorem c3_unknown_tag_passthrough_witness :
    decodeAnyMsg ⟨"/osmosis.gamm.v1beta1.MsgSwapExactAmountIn", .garbage 5⟩ =
      .ok (.stargate "/osmosis.gamm.v1beta1.MsgSwapExactAmountIn" (.garbage 5)) ∧
    execute_multiple_raw listCodec (simConst []) "alice"
        [⟨"/osmosis.gamm.v1beta1.MsgSwapExactAmountIn", .garbage 5⟩] =
      execute_cosmos_msgs listCodec (simConst []) "alice"
        [.stargate "/osmosis.gamm.v1beta1.MsgSwapExactAmountIn" (.garbage 5)] :=
  c3_unknown_tag_passthrough listCodec (simConst []) "alice"
    "/osmosis.gamm.v1beta1.MsgSwapExactAmountIn" (.garbage 5) (by decide)

/-- Claim C6, counterexample: the round trip is not the identity on all
valid canonical messages — an `Instantiate` with `admin = none` (a valid
value of the optional field) encodes to the proto default empty admin
string and decodes back to `admin = some ""`, a different canonical
message. -/
theorem c6_counterexample :
    encodeCanonical (.wasm (.instantiate 1 none [] [] "l")) =
      some ⟨MsgInstantiateContract.TYPE_URL, .instantiateBytes ⟨"", "", 1, "l", [], []⟩⟩ ∧
    decodeAnyMsg ⟨MsgInstantiateContract.TYPE_URL, .instantiateBytes ⟨"", "", 1, "l", [], []⟩⟩ =
      .ok (.wasm (.instantiate 1 (some "") [] [] "l")) ∧
    (CosmosMsg.wasm (.instantiate 1 (some "") [] [] "l")) ≠
      (.wasm (.instantiate 1 none [] [] "l")) :=
  ⟨by decide, by decide, by decide⟩

/-- Claim C6, amended: for every known-tag canonical message whose coin
amounts are in `u128` range and whose `Instantiate` admin is present
(`admin = none` is not faithfully encodable, see the counterexample),
decoding the encoded tagged wire form yields the original canonical
message. -/
theorem c6_roundtrip_amended (c : CosmosMsg) (a : AnyMsg)
    (hv : c.amountsValid = true) (ha : c.adminEncodable = true)
    (henc : encodeCanonical c = some a) :
    decodeAnyMsg a = .ok c := by
  cases c with
  | wasm w =>
    cases w with
    | execute addr m funds =>
      simp only [encodeCanonical, Option.some.injEq] at henc
      subst henc
      rw [decodeAnyMsg_executeUrl]
      simp only [CosmosMsg.amountsValid] at hv
      simp only [executeArm, MsgExecuteContract.decode,
        parseCoins_map_encodeCoin funds hv]
    | instantiate cid admin m funds label =>
      simp only [encodeCanonical, Option.some.injEq] at henc
      subst henc
      rw [decodeAnyMsg_instantiateUrl]
      simp only [CosmosMsg.amountsValid] at hv
      simp only [CosmosMsg.adminEncodable] at ha
      cases admin with
      | none => simp at ha
      | some s =>
        simp only [instantiateArm, MsgInstantiateContract.decode,
          parseCoins_map_encodeCoin funds hv, Option.getD_some]
    | migrate addr ncid m =>
      simp only [encodeCanonical, Option.some.injEq] at henc
      subst henc
      rw [decodeAnyMsg_migrateUrl]
      rfl
    | updateAdmin addr ad =>
      simp only [encodeCanonical, Option.some.injEq] at henc
      subst henc
      rw [decodeAnyMsg_updateAdminUrl]
      rfl
    | clearAdmin addr =>
      simp only [encodeCanonical, Option.some.injEq] at henc
      subst henc
      rw [decodeAnyMsg_clearAdminUrl]
      rfl
  | bank b =>
    cases b with
    | send toAddr amt =>
      simp only [encodeCanonical, Option.some.injEq] at henc
      subst henc
      rw [decodeAnyMsg_sendUrl]
      simp only [CosmosMsg.amountsValid] at hv
      simp only [sendArm, MsgSend.decode, parseCoins_map_encodeCoin amt hv]
  | staking s =>
    cases s with
    | delegate val amt =>
      simp only [encodeCanonical, Option.some.injEq] at henc
      subst henc
      rw [decodeAnyMsg_delegateUrl]
      simp only [CosmosMsg.amountsValid] at hv
      have hlt : amt.amount < 2 ^ 128 := of_decide_eq_true hv
      simp only [delegateArm, MsgDelegate.decode, Option.getD_some, encodeCoin,
        parseU128_natToDecString amt.amount hlt]
    | undelegate val amt =>
      simp only [encodeCanonical, Option.some.injEq] at henc
      subst henc
      rw [decodeAnyMsg_undelegateUrl]
      simp only [CosmosMsg.amountsValid] at hv
      have hlt : amt.amount < 2 ^ 128 := of_decide_eq_true hv
      simp only [undelegateArm, MsgUndelegate.decode, Option.getD_some, encodeCoin,
        parseU128_natToDecString amt.amount hlt]
    | redelegate src dst amt =>
      simp only [encodeCanonical, Option.some.injEq] at henc
      subst henc
      rw [decodeAnyMsg_redelegateUrl]
      simp only [CosmosMsg.amountsValid] at hv
      have hlt : amt.amount < 2 ^ 128 := of_decide_eq_true hv
      simp only [redelegateArm, MsgBeginRedelegate.decode, Option.getD_some, encodeCoin,
        parseU128_natToDecString amt.amount hlt]
  | stargate url v => simp [encodeCanonical] at henc

/-- Claim C6, amended, witness: a bank send with amount `100` round-trips. -/
theorem c6_roundtrip_amended_witness :
    decodeAnyMsg ⟨MsgSend.TYPE_URL, .sendBytes ⟨"", "bob", [⟨"uatom", "100"⟩]⟩⟩ =
      .ok (.bank (.send "bob" [⟨"uatom", 100⟩])) :=
  c6_roundtrip_amended (.bank (.send "bob" [⟨"uatom", 100⟩]))
    ⟨MsgSend.TYPE_URL, .sendBytes ⟨"", "bob", [⟨"uatom", "100"⟩]⟩⟩
    (by decide) (by decide) (by decide)

/-- Claim C7: `store_code` rejects any non-in-memory artifact kind with the
unsupported-artifact error (a returned `Err`, never a panic) regardless of
the signer, and registers an in-memory contract returning the id the
simulator assigns. -/
theorem c7_store_code (storeImpl : ContractImpl → Nat) (signer : String)
    (a : Artifact) (contract : ContractImpl) :
    store_code storeImpl (.artifact a) signer =
      .error "Artifact not supported for MultiTestRunner" ∧
    store_code storeImpl (.multiTestContract contract) signer =
      .ok (storeImpl contract) :=
  ⟨rfl, rfl⟩

/-- Claim C2: on a successful batch, the typed response is decoded from the
last sub-result (in submission order) carrying a present response payload;
the result is exactly that decoded value (events concatenated, `raw_data`
its re-encoding, gas zero). -/
theorem c2_last_data_decoded {S : Type} (codec : ProtoCodec S) (sim : Simulator)
    (signer : String) (msgs : List CosmosMsg) (rs : List AppResponse)
    (d : List Nat) (x : S)
    (hsim : sim signer msgs = .ok rs)
    (hlast : ((rs.map AppResponse.data).filterMap id).getLast? = some d)
    (hdec : codec.decode d = some x) :
    execute_cosmos_msgs codec sim signer msgs =
      .ok ⟨x, (rs.map AppResponse.events).flatten, codec.encode x, 0, 0⟩ := by
  unfold execute_cosmos_msgs
  rw [hsim]
  have hl := getLast_filter_isSome (rs.map AppResponse.data)
  rw [hlast] at hl
  simp only [hl, hdec]

/-- Claim C2, witness: with sub-result data `[none, some [1], none,
some [2]]` the typed data decodes from `[2]`. -/
theorem c2_last_data_decoded_witness :
    execute_cosmos_msgs listCodec (simConst rs4) "alice" [] =
      .ok ⟨[2], [], [2], 0, 0⟩ :=
  c2_last_data_decoded listCodec (simConst rs4) "alice" [] rs4 [2] [2]
    rfl (by decide) rfl

/-- Claim C5: whenever the simulator succeeds and no sub-result carries a
response payload (the empty batch included, where the event list is empty
too), the typed data is `S::default()` and, for a lawful prost codec
(`encode default = []`), the raw data is empty. -/
theorem c5_no_data_defaults {S : Type} (codec : ProtoCodec S) (sim : Simulator)
    (signer : String) (msgs : List CosmosMsg) (rs : List AppResponse)
    (hdef : codec.encode codec.default = [])
    (hsim : sim signer msgs = .ok rs)
    (hnone : ∀ r ∈ rs, r.data = none) :
    execute_cosmos_msgs codec sim signer msgs =
      .ok ⟨codec.default, (rs.map AppResponse.events).flatten, [], 0, 0⟩ := by
  unfold execute_cosmos_msgs
  rw [hsim]
  have hfil : (rs.map AppResponse.data).filter Option.isSome = [] := by
    apply List.filter_eq_nil_iff.mpr
    intro a hmem
    rw [List.mem_map] at hmem
    obtain ⟨r, hr, rfl⟩ := hmem
    rw [hnone r hr]
    simp
  simp only [hfil, List.getLast?_nil, Option.getD_none, hdef]

/-- Claim C5, witness: the empty batch on a simulator returning no
sub-results yields default data, empty raw data and no events. -/
theorem c5_no_data_defaults_witness :
    execute_cosmos_msgs listCodec (simConst []) "alice" [] =
      .ok ⟨[], [], [], 0, 0⟩ :=
  c5_no_data_defaults listCodec (simConst []) "alice" [] [] rfl rfl (by simp)

/-- Claim C8: on a successful execution, the response's events are exactly
the concatenation, in submission order, of the per-sub-result event lists
(inner order preserved). -/
theorem c8_events_concatenated {S : Type} (codec : ProtoCodec S) (sim : Simulator)
    (signer : String) (msgs : List CosmosMsg) (rs : List AppResponse)
    (resp : ExecuteResponse S)
    (hsim : sim signer msgs = .ok rs)
    (hok : execute_cosmos_msgs codec sim signer msgs = .ok resp) :
    resp.events = (rs.map AppResponse.events).flatten := by
  unfold execute_cosmos_msgs at hok
  rw [hsim] at hok
  cases hld : ((rs.map AppResponse.data).filter Option.isSome).getLast?.getD none with
  | none =>
    simp only [hld, Outcome.ok.injEq] at hok
    rw [← hok]
  | some d =>
    cases hdec : codec.decode d with
    | none =>
      simp only [hld, hdec] at hok
      exact Outcome.noConfusion hok
    | some x =>
      simp only [hld, hdec, Outcome.ok.injEq] at hok
      rw [← hok]

/-- Claim C8, witness: a single sub-result's events are returned as-is. -/
theorem c8_events_concatenated_witness :
    (ExecuteResponse.mk ([] : List Nat) [⟨"transfer", [("recipient", "bob")]⟩] [] 0 0).events
      = (rsEv.map AppResponse.events).flatten :=
  c8_events_concatenated listCodec (simConst rsEv) "alice" [] rsEv
    ⟨[], [⟨"transfer", [("recipient", "bob")]⟩], [], 0, 0⟩ rfl (by decide)

/-- Claim C4, counterexample: a batch whose second message has a known tag
and a proto-malformed payload, but whose first message is a known-tag
staking message with an absent amount, does not return a decode error —
decoding the first message panics before the malformed one is reached
(Rust's `collect::<Result<..>>` drives the iterator left to right). -/
theorem c4_counterexample :
    (AnyMsg.mk MsgExecuteContract.TYPE_URL (.garbage 0)).type_url ∈ knownUrls ∧
    MsgExecuteContract.decode (.garbage 0) = none ∧
    execute_multiple_raw listCodec (simConst []) "alice"
      [⟨MsgDelegate.TYPE_URL, .delegateBytes ⟨"d", "v", none⟩⟩,
       ⟨MsgExecuteContract.TYPE_URL, .garbage 0⟩] = .panicked :=
  ⟨by decide, rfl, by decide⟩

/-- Claim C4, amended: if some message of the batch has a known tag and a
payload that fails to proto-decode under that tag's schema, and every
message before it decodes cleanly (in particular, none panics on a coin
amount), then execution returns the decode error, and the result is the
same for every simulator — no message of the batch is ever submitted. -/
theorem c4_batch_abandoned_amended {S : Type} (codec : ProtoCodec S)
    (signer : String) (pre : List AnyMsg) (cs : List CosmosMsg) (bad : AnyMsg)
    (post : List AnyMsg) (e : RunnerError)
    (hpre : mapDecode pre = .ok cs)
    (hbad : decodeAnyMsg bad = .err e) :
    ∀ sim : Simulator,
      execute_multiple_raw codec sim signer (pre ++ bad :: post) = .err e := by
  intro sim
  unfold execute_multiple_raw
  rw [mapDecode_append_err pre cs bad post e hpre hbad]

/-- Claim C4, amended, witness: a clean clear-admin message followed by a
malformed known-tag payload makes the whole batch fail with the proto
decode error, with the simulator never consulted. -/
theorem c4_batch_abandoned_amended_witness :
    execute_multiple_raw listCodec (simConst []) "alice"
      [⟨MsgClearAdmin.TYPE_URL, .clearAdminBytes ⟨"s", "c1"⟩⟩,
       ⟨MsgExecuteContract.TYPE_URL, .garbage 0⟩] =
      .err (.decodeError .protoDecodeError) :=
  c4_batch_abandoned_amended listCodec "alice"
    [⟨MsgClearAdmin.TYPE_URL, .clearAdminBytes ⟨"s", "c1"⟩⟩]
    [.wasm (.clearAdmin "c1")] ⟨MsgExecuteContract.TYPE_URL, .garbage 0⟩ []
    (.decodeError .protoDecodeError) (by decide) (by decide) (simConst [])

end CwIt
